import Mathlib

/-!
Verification of the non-transferable-token core of a SNIP-721 style NFT
registry. The repository source available here consists of the contract's
unit tests (src/unittest_non_transferable.rs); the contract implementation
itself (contract.rs, state.rs, token.rs, inventory.rs, expiration.rs,
royalties.rs) is not part of the corpus, so the operations below are
modelled from the natural-language specification of the system, with the
behavior pinned down by the repository's unit-test assertions wherever the
two speak to the same point.
-/

namespace Snip721

/-- Modelled from the spec: a single royalty entry of royalties.rs
(`Royalty { recipient, rate }`); the payload is opaque to the core, only
presence or absence matters. -/
structure Royalty where
  recipient : String
  rate : Nat
deriving DecidableEq

/-- Modelled from the spec: the royalty payload of royalties.rs
(`RoyaltyInfo { decimal_places_in_rates, royalties }`). -/
structure RoyaltyInfo where
  decimal_places_in_rates : Nat
  royalties : List Royalty
deriving DecidableEq

/-- Modelled from the spec: `Expiration` of expiration.rs —
`Never`, `AtHeight(u64)`, or `AtTime(u64)`. -/
inductive Expiration where
  | never : Expiration
  | atHeight (h : Nat) : Expiration
  | atTime (t : Nat) : Expiration
deriving DecidableEq

/-- Modelled from the spec: an approval is non-expired ("valid") when it is
`Never`, or `AtHeight(h)` with current height ≤ h, or `AtTime(t)` with
current time ≤ t; the boundary value is inclusive. -/
def Expiration.isValid : Expiration → Nat → Nat → Bool
  | .never, _, _ => true
  | .atHeight h, height, _ => decide (height ≤ h)
  | .atTime t, _, time => decide (time ≤ t)

/-- Modelled from the spec: an approval `{ spender, expiration }`. -/
structure Approval where
  spender : String
  expiration : Expiration
deriving DecidableEq

/-- Modelled from the spec: metadata blobs are opaque to the core; only a
stand-in record is kept so the Token shape matches token.rs. -/
structure Metadata where
  token_uri : Option String
deriving DecidableEq

/-- Modelled from the spec: the per-token record of the Token Registry
(token.rs `Token`): owner, metadata references, optional royalty info,
transferable flag, unwrapped flag, and token-level approvals. -/
structure Token where
  owner : String
  public_metadata : Option Metadata
  private_metadata : Option Metadata
  royalty_info : Option RoyaltyInfo
  transferable : Bool
  unwrapped : Bool
  approvals : List Approval
deriving DecidableEq

/-- Modelled from the spec: the process-wide `Config` of state.rs. -/
structure Config where
  admin : String
  minters : List String
  mint_cnt : Nat
  tx_cnt : Nat
  token_supply_is_public : Bool
  owner_is_public : Bool
  sealed_metadata_is_enabled : Bool
  unwrap_to_private : Bool
  minter_may_update_metadata : Bool
  owner_may_update_metadata : Bool
  burn_is_enabled : Bool
deriving DecidableEq

/-- Modelled from the spec: a per-owner inventory (inventory.rs
`Inventory`): a persisted ordered set of token indices plus a cached
count `cnt`. -/
structure Inventory where
  indices : List Nat
  cnt : Nat
deriving DecidableEq

/-- Membership test on an owner's inventory. -/
def Inventory.contains (inv : Inventory) (i : Nat) : Bool :=
  decide (i ∈ inv.indices)

/-- Modelled from the spec: inventory insertion keeps the cached count in
step with the set (no duplicate entries are added). -/
def Inventory.insert (inv : Inventory) (i : Nat) : Inventory :=
  if inv.contains i then inv
  else { indices := inv.indices ++ [i], cnt := inv.cnt + 1 }

/-- Modelled from the spec: inventory removal keeps the cached count in
step with the set. -/
def Inventory.remove (inv : Inventory) (i : Nat) : Inventory :=
  if inv.contains i then { indices := inv.indices.erase i, cnt := inv.cnt - 1 }
  else inv

/-- The empty inventory (owner holds no tokens). -/
def emptyInventory : Inventory := { indices := [], cnt := 0 }

/-- Pointwise map update used for the keyed stores of the contract state. -/
def upd {α β : Type} [DecidableEq α] (f : α → β) (k : α) (v : β) : α → β :=
  fun x => if x = k then v else f x

/-- Modelled from the spec: the whole persistent state of the contract —
the Token Registry (`tokens`, keyed by dense index), the bidirectional
id↔index maps, the per-owner inventories, the inventory-level approvals,
the monotone next-index counter, and the config with the contract-wide
default royalty set at instantiation. -/
structure ContractState where
  config : Config
  default_royalty : Option RoyaltyInfo
  tokens : Nat → Option Token
  idToIndex : String → Option Nat
  indexToId : Nat → Option String
  inventories : String → Inventory
  inventoryApprovals : String → List Approval
  next_index : Nat

/-- Modelled from the spec: the error taxonomy of §7, with the
human-readable messages asserted by the repository's unit tests. -/
inductive ContractError where
  | notFound (id : String) : ContractError
  | unauthorized (id : String) : ContractError
  | notAMinter : ContractError
  | nonTransferable (id : String) : ContractError
  | alreadyExists (id : String) : ContractError
  | royaltiesOnNonTransferable : ContractError
  | burnDisabled : ContractError
deriving DecidableEq

/-- The human-readable message carried by each error, as asserted by the
repository's unit tests (unittest_non_transferable.rs). -/
def ContractError.msg : ContractError → String
  | .notFound id => "Token ID: " ++ id ++ " not found"
  | .unauthorized id => "You are not authorized to perform this action on token " ++ id
  | .notAMinter => "Only designated minters are allowed to mint"
  | .nonTransferable id => "Token ID: " ++ id ++ " is non-transferable"
  | .alreadyExists id => "Token ID " ++ id ++ " is already in use"
  | .royaltiesOnNonTransferable =>
      "Non-transferable tokens can not be sold, so royalties are meaningless"
  | .burnDisabled => "Burn functionality is not enabled for this token"

/-- `containsSub hay needle` holds when `needle` occurs contiguously inside
`hay` (the "error message contains ..." relation of the spec). -/
def containsSub (hay needle : String) : Prop :=
  ∃ pre post : List Char, hay.data = pre ++ needle.data ++ post

/-- `exceptIsOk` reports whether a fallible operation succeeded. -/
def exceptIsOk {ε α : Type} : Except ε α → Bool
  | .ok _ => true
  | .error _ => false

/-- Modelled from the spec: a non-expired approval naming `caller` exists
in the given approval list. -/
def hasValidApproval (approvals : List Approval) (caller : String)
    (height time : Nat) : Bool :=
  approvals.any fun a => a.spender == caller && a.expiration.isValid height time

/-- Modelled from the spec: the Permission Engine's
`is_owner_or_approved(token, caller, now)`: the caller is the owner, or
holds a non-expired token-level approval, or a non-expired
inventory-level approval for the token's owner. -/
def isOwnerOrApproved (s : ContractState) (t : Token) (caller : String)
    (height time : Nat) : Bool :=
  caller == t.owner
    || hasValidApproval t.approvals caller height time
    || hasValidApproval (s.inventoryApprovals t.owner) caller height time

/-- Modelled from the spec: one mint request (msg.rs `Mint`): optional id,
optional owner (default = caller), optional metadata, optional royalty
payload, optional transferable flag. -/
structure Mint where
  token_id : Option String
  owner : Option String
  public_metadata : Option Metadata
  private_metadata : Option Metadata
  royalty_info : Option RoyaltyInfo
  transferable : Option Bool
deriving DecidableEq

/-- Modelled from the spec: one batch-transfer item (msg.rs `Transfer`):
a recipient and the list of token ids to move, processed in order. -/
structure Transfer where
  recipient : String
  token_ids : List String
deriving DecidableEq

/-- Modelled from the spec: one batch-send item (msg.rs `Send`): a
receiving contract and the token ids to move; the receiver callback is
out of scope, so only the state transition is modelled. -/
structure Send where
  contract : String
  token_ids : List String
deriving DecidableEq

/-- Modelled from the spec: one batch-burn item (msg.rs `Burn`). -/
structure Burn where
  token_ids : List String
deriving DecidableEq

/-- Modelled from the spec: the Transition Engine's mint. The caller must
be the admin or a configured minter; the id (default: the decimal mint
count) must be unmapped; owner defaults to the caller and transferable to
true. Per the repository's unit test test_no_royalties_if_non_transferable
a non-transferable mint is NOT rejected when a royalty payload is present:
the mint succeeds and stores no royalty at all (neither the supplied
payload nor the contract default). Token, id↔index mapping and inventory
entry are created together and the counters advance. -/
def mintOne (s : ContractState) (caller : String) (m : Mint) :
    Except ContractError ContractState :=
  if caller == s.config.admin || s.config.minters.contains caller then
    let id := m.token_id.getD (toString s.config.mint_cnt)
    match s.idToIndex id with
    | some _ => .error (.alreadyExists id)
    | none =>
      let owner := m.owner.getD caller
      let transferable := m.transferable.getD true
      let royalty :=
        if transferable then
          match m.royalty_info with
          | some r => some r
          | none => s.default_royalty
        else none
      let token : Token :=
        { owner := owner
          public_metadata := m.public_metadata
          private_metadata := m.private_metadata
          royalty_info := royalty
          transferable := transferable
          unwrapped := !s.config.sealed_metadata_is_enabled
          approvals := [] }
      let idx := s.next_index
      .ok { s with
        config := { s.config with mint_cnt := s.config.mint_cnt + 1 }
        tokens := upd s.tokens idx (some token)
        idToIndex := upd s.idToIndex id (some idx)
        indexToId := upd s.indexToId idx (some id)
        inventories := upd s.inventories owner ((s.inventories owner).insert idx)
        next_index := s.next_index + 1 }
  else .error .notAMinter

/-- Modelled from the spec: process a list of mint requests in order,
failing fast on the first rejected one. -/
def mintList (caller : String) :
    ContractState → List Mint → Except ContractError ContractState
  | s, [] => .ok s
  | s, m :: rest =>
    match mintOne s caller m with
    | .error e => .error e
    | .ok s' => mintList caller s' rest

/-- Modelled from the spec: the Transition Engine's transfer of one token.
The token must resolve, must be transferable (a non-transferable token
fails with "Token ID: X is non-transferable"), and the caller must be
owner or approved. On success the token moves to the recipient's
inventory, its owner field is updated, its token-level approvals are
cleared, and the transaction count advances. -/
def transferOne (s : ContractState) (caller recipient id : String)
    (height time : Nat) : Except ContractError ContractState :=
  match s.idToIndex id with
  | none => .error (.notFound id)
  | some idx =>
    match s.tokens idx with
    | none => .error (.notFound id)
    | some t =>
      if !t.transferable then .error (.nonTransferable id)
      else if !isOwnerOrApproved s t caller height time then
        .error (.unauthorized id)
      else
        let invs1 := upd s.inventories t.owner ((s.inventories t.owner).remove idx)
        let invs2 := upd invs1 recipient ((invs1 recipient).insert idx)
        .ok { s with
          tokens := upd s.tokens idx (some { t with owner := recipient, approvals := [] })
          inventories := invs2
          config := { s.config with tx_cnt := s.config.tx_cnt + 1 } }

/-- Modelled from the spec: process a flattened list of
(recipient, token id) pairs in order, failing fast on the first violating
token. Used by both batch transfer and batch send, whose state semantics
coincide (the send callback is out of scope). -/
def transferList (caller : String) (height time : Nat) :
    ContractState → List (String × String) → Except ContractError ContractState
  | s, [] => .ok s
  | s, p :: rest =>
    match transferOne s caller p.1 p.2 height time with
    | .error e => .error e
    | .ok s' => transferList caller height time s' rest

/-- Modelled from the spec: send has the same state-transition semantics
as transfer; the receiver-contract callback is out of scope. -/
def sendOne (s : ContractState) (caller contract id : String)
    (height time : Nat) : Except ContractError ContractState :=
  transferOne s caller contract id height time

/-- The per-token order in which a batch transfer processes its items. -/
def flattenTransfers (ts : List Transfer) : List (String × String) :=
  ts.flatMap fun tr => tr.token_ids.map fun id => (tr.recipient, id)

/-- The per-token order in which a batch send processes its items. -/
def flattenSends (ss : List Send) : List (String × String) :=
  ss.flatMap fun sd => sd.token_ids.map fun id => (sd.contract, id)

/-- Modelled from the spec: the Transition Engine's burn of one token.
Burn is allowed when the global `burn_is_enabled` flag is set OR
unconditionally when the token is non-transferable; it further requires
the caller to be owner or approved. On success the token record, both
id↔index map entries, and the owner's inventory entry are removed
together (the index is never reused). -/
def burnOne (s : ContractState) (caller id : String) (height time : Nat) :
    Except ContractError ContractState :=
  match s.idToIndex id with
  | none => .error (.notFound id)
  | some idx =>
    match s.tokens idx with
    | none => .error (.notFound id)
    | some t =>
      if !(s.config.burn_is_enabled || !t.transferable) then .error .burnDisabled
      else if !isOwnerOrApproved s t caller height time then
        .error (.unauthorized id)
      else
        .ok { s with
          tokens := upd s.tokens idx none
          idToIndex := upd s.idToIndex id none
          indexToId := upd s.indexToId idx none
          inventories := upd s.inventories t.owner ((s.inventories t.owner).remove idx)
          config := { s.config with tx_cnt := s.config.tx_cnt + 1 } }

/-- Modelled from the spec: process a list of token ids to burn in order,
failing fast on the first violating token. -/
def burnList (caller : String) (height time : Nat) :
    ContractState → List String → Except ContractError ContractState
  | s, [] => .ok s
  | s, id :: rest =>
    match burnOne s caller id height time with
    | .error e => .error e
    | .ok s' => burnList caller height time s' rest

/-- Modelled from the spec: SetRoyaltyInfo. With a token id it rejects
outright on a non-transferable token — with the message asserted by the
unit tests — BEFORE any authorization check (§4.5: "independent of caller
authorization"); on a transferable token it requires the caller to be
admin or the token's owner and replaces the token's royalty data. With no
token id it replaces the contract-wide default (admin only). -/
def setRoyaltyInfoOp (s : ContractState) (caller : String)
    (token_id : Option String) (payload : Option RoyaltyInfo) :
    Except ContractError ContractState :=
  match token_id with
  | some id =>
    match s.idToIndex id with
    | none => .error (.notFound id)
    | some idx =>
      match s.tokens idx with
      | none => .error (.notFound id)
      | some t =>
        if !t.transferable then .error .royaltiesOnNonTransferable
        else if !(caller == s.config.admin || caller == t.owner) then
          .error (.unauthorized id)
        else .ok { s with tokens := upd s.tokens idx (some { t with royalty_info := payload }) }
  | none =>
    if caller == s.config.admin then .ok { s with default_royalty := payload }
    else .error .notAMinter

/-- Modelled from the spec: the closed set of state-changing messages the
claims exercise (msg.rs `ExecuteMsg`, restricted to the core). -/
inductive ExecuteMsg where
  | mintNft (m : Mint) : ExecuteMsg
  | batchMintNft (mints : List Mint) : ExecuteMsg
  | transferNft (recipient id : String) : ExecuteMsg
  | batchTransferNft (transfers : List Transfer) : ExecuteMsg
  | sendNft (contract id : String) : ExecuteMsg
  | batchSendNft (sends : List Send) : ExecuteMsg
  | burnNft (id : String) : ExecuteMsg
  | batchBurnNft (burns : List Burn) : ExecuteMsg
  | setRoyaltyInfo (token_id : Option String) (royalty_info : Option RoyaltyInfo) : ExecuteMsg

/-- Modelled from the spec: the Transition Engine's dispatch of one
inbound message against one consistent view of the state. -/
def execute (s : ContractState) (caller : String) (height time : Nat) :
    ExecuteMsg → Except ContractError ContractState
  | .mintNft m => mintOne s caller m
  | .batchMintNft ms => mintList caller s ms
  | .transferNft r id => transferOne s caller r id height time
  | .batchTransferNft ts => transferList caller height time s (flattenTransfers ts)
  | .sendNft c id => sendOne s caller c id height time
  | .batchSendNft ss => transferList caller height time s (flattenSends ss)
  | .burnNft id => burnOne s caller id height time
  | .batchBurnNft bs => burnList caller height time s (bs.flatMap Burn.token_ids)
  | .setRoyaltyInfo tid r => setRoyaltyInfoOp s caller tid r

/-- Modelled from the spec (§5): the whole handler invocation is one
transaction — on any failure the entire operation's effects are
discarded and the previous state is kept. -/
def applyExecute (s : ContractState) (caller : String) (height time : Nat)
    (msg : ExecuteMsg) : ContractState :=
  match execute s caller height time msg with
  | .ok s' => s'
  | .error _ => s

/-- Modelled from the spec and the unit test test_is_transferable: the
IsTransferable query. For a live token it reports the token's flag. For
an unknown id it fails with "Token ID: X not found" when the token supply
is public, but — to avoid leaking which ids exist — reports `true` when
the supply is private. -/
def queryIsTransferable (s : ContractState) (id : String) :
    Except ContractError Bool :=
  match s.idToIndex id with
  | some idx =>
    match s.tokens idx with
    | some t => .ok t.transferable
    | none =>
      if s.config.token_supply_is_public then .error (.notFound id) else .ok true
  | none =>
    if s.config.token_supply_is_public then .error (.notFound id) else .ok true

/-- Modelled from the spec: whether one token id counts as
transfer-approved for `addr` in the VerifyTransferApproval query: the id
must resolve to a live token, the token must be transferable
(a non-transferable token ALWAYS counts as not approved), and `addr`
must be owner or approved. -/
def tokenApproved (s : ContractState) (addr : String) (height time : Nat)
    (id : String) : Bool :=
  match s.idToIndex id with
  | none => false
  | some idx =>
    match s.tokens idx with
    | none => false
    | some t => t.transferable && isOwnerOrApproved s t addr height time

/-- Modelled from the spec: the first id in the list that is not
transfer-approved for `addr`, if any. -/
def firstUnapproved (s : ContractState) (addr : String) (height time : Nat) :
    List String → Option String
  | [] => none
  | id :: rest =>
    if tokenApproved s addr height time id then
      firstUnapproved s addr height time rest
    else some id

/-- Modelled from the spec: the VerifyTransferApproval query — reports
full approval, or `approved_for_all = false` together with the first
unapproved token id. (Viewing-key authentication is out of scope.) -/
def verifyTransferApproval (s : ContractState) (addr : String)
    (height time : Nat) (ids : List String) : Bool × Option String :=
  match firstUnapproved s addr height time ids with
  | none => (true, none)
  | some id => (false, some id)

/-- The royalty data attached to the token at `idx`, if any. -/
def tokenRoyalty (s : ContractState) (idx : Nat) : Option RoyaltyInfo :=
  match s.tokens idx with
  | some t => t.royalty_info
  | none => none

/-- The data-model invariant of §3: a token carries royalty data only if it
is transferable. -/
def RoyaltyInvariant (s : ContractState) : Prop :=
  ∀ i t, s.tokens i = some t → t.royalty_info.isSome = true → t.transferable = true

/-- Concrete royalty payload mirroring the one built in the unit tests. -/
def demoRoyalties : RoyaltyInfo :=
  { decimal_places_in_rates := 2
    royalties := [{ recipient := "alice", rate := 10 }, { recipient := "bob", rate := 5 }] }

/-- A non-transferable token owned by alice, as minted in the unit tests. -/
def tokNT : Token :=
  { owner := "alice"
    public_metadata := none
    private_metadata := none
    royalty_info := none
    transferable := false
    unwrapped := true
    approvals := [] }

/-- A transferable token owned by alice. -/
def tokT : Token := { tokNT with transferable := true }

/-- A transferable token owned by bob is not needed; this non-transferable
token owned by bob is used by the VerifyTransferApproval scenario. -/
def tokB : Token := { tokNT with owner := "bob" }

/-- The configuration the unit tests instantiate with burn disabled and a
private token supply. -/
def demoConfig : Config :=
  { admin := "admin"
    minters := []
    mint_cnt := 2
    tx_cnt := 0
    token_supply_is_public := false
    owner_is_public := false
    sealed_metadata_is_enabled := false
    unwrap_to_private := false
    minter_may_update_metadata := true
    owner_may_update_metadata := false
    burn_is_enabled := false }

/-- A concrete state holding a non-transferable token "NFT1" (index 0) and
a transferable token "NFT2" (index 1), both owned by alice. -/
def demo : ContractState :=
  { config := demoConfig
    default_royalty := none
    tokens := fun i => if i = 0 then some tokNT else if i = 1 then some tokT else none
    idToIndex := fun id => if id = "NFT1" then some 0 else if id = "NFT2" then some 1 else none
    indexToId := fun i => if i = 0 then some "NFT1" else if i = 1 then some "NFT2" else none
    inventories := fun o => if o = "alice" then { indices := [0, 1], cnt := 2 } else emptyInventory
    inventoryApprovals := fun _ => []
    next_index := 2 }

/-- `demo` with a public token supply. -/
def demoPub : ContractState :=
  { demo with config := { demoConfig with token_supply_is_public := true } }

/-- A concrete state where token "A" (index 0) is transferable and owned by
alice while token "B" (index 1) is non-transferable and owned by bob. -/
def cs3 : ContractState :=
  { config := demoConfig
    default_royalty := none
    tokens := fun i => if i = 0 then some tokT else if i = 1 then some tokB else none
    idToIndex := fun id => if id = "A" then some 0 else if id = "B" then some 1 else none
    indexToId := fun i => if i = 0 then some "A" else if i = 1 then some "B" else none
    inventories := fun o =>
      if o = "alice" then { indices := [0], cnt := 1 }
      else if o = "bob" then { indices := [1], cnt := 1 }
      else emptyInventory
    inventoryApprovals := fun _ => []
    next_index := 2 }

/-- A freshly instantiated state: no tokens yet, a contract-wide default
royalty configured, burn disabled (as in the unit tests). -/
def demo0 : ContractState :=
  { config := { demoConfig with mint_cnt := 0 }
    default_royalty := some demoRoyalties
    tokens := fun _ => none
    idToIndex := fun _ => none
    indexToId := fun _ => none
    inventories := fun _ => emptyInventory
    inventoryApprovals := fun _ => []
    next_index := 0 }

/-- The mint request of test_no_royalties_if_non_transferable: explicit
royalty payload together with transferable = Some(false). -/
def mint4 : Mint :=
  { token_id := some "TrySetRoys"
    owner := none
    public_metadata := none
    private_metadata := none
    royalty_info := some demoRoyalties
    transferable := some false }

/-- A mint request leaving the transferable field unspecified. -/
def mintDefaultT : Mint :=
  { token_id := some "NFT3"
    owner := some "alice"
    public_metadata := none
    private_metadata := none
    royalty_info := none
    transferable := none }

theorem upd_same {α β : Type} [DecidableEq α] (f : α → β) (k : α) (v : β) :
    upd f k v k = v := by
  simp [upd]

theorem upd_ne {α β : Type} [DecidableEq α] (f : α → β) (k : α) (v : β)
    (x : α) (h : x ≠ k) : upd f k v x = f x := by
  simp [upd, h]

theorem transferOne_nonTransferable (s : ContractState) (caller r id : String)
    (hgt tm idx : Nat) (tk : Token)
    (hres : s.idToIndex id = some idx) (htok : s.tokens idx = some tk)
    (hnt : tk.transferable = false) :
    transferOne s caller r id hgt tm = .error (.nonTransferable id) := by
  simp [transferOne, hres, htok, hnt]

theorem transferOne_preserves (s s' : ContractState) (caller r id : String)
    (hgt tm : Nat) (h : transferOne s caller r id hgt tm = .ok s') :
    s'.idToIndex = s.idToIndex ∧
      ∀ j, (s'.tokens j).map Token.transferable = (s.tokens j).map Token.transferable := by
  unfold transferOne at h
  split at h
  · simp at h
  next idx hidx =>
    split at h
    · simp at h
    next t htok =>
      split at h
      · simp at h
      · split at h
        · simp at h
        · rw [Except.ok.injEq] at h
          subst h
          refine ⟨rfl, fun j => ?_⟩
          by_cases hj : j = idx
          · subst hj
            simp [upd_same, htok]
          · simp [upd_ne _ _ _ _ hj]

theorem transferList_append (caller : String) (hgt tm : Nat)
    (l₁ l₂ : List (String × String)) :
    ∀ s, transferList caller hgt tm s (l₁ ++ l₂) =
      match transferList caller hgt tm s l₁ with
      | .ok s₀ => transferList caller hgt tm s₀ l₂
      | .error e => .error e := by
  induction l₁ with
  | nil => intro s; rfl
  | cons p rest ih =>
    intro s
    simp only [List.cons_append, transferList]
    cases h : transferOne s caller p.1 p.2 hgt tm with
    | error e => rfl
    | ok s₁ => exact ih s₁

theorem transferList_preserves (caller : String) (hgt tm : Nat)
    (l : List (String × String)) :
    ∀ s s₀, transferList caller hgt tm s l = .ok s₀ →
      s₀.idToIndex = s.idToIndex ∧
        ∀ j, (s₀.tokens j).map Token.transferable = (s.tokens j).map Token.transferable := by
  induction l with
  | nil =>
    intro s s₀ h
    simp only [transferList, Except.ok.injEq] at h
    subst h
    exact ⟨rfl, fun _ => rfl⟩
  | cons p rest ih =>
    intro s s₀ h
    simp only [transferList] at h
    cases htr : transferOne s caller p.1 p.2 hgt tm with
    | error e => rw [htr] at h; simp at h
    | ok s₁ =>
      rw [htr] at h
      obtain ⟨h1, h2⟩ := transferOne_preserves s s₁ caller p.1 p.2 hgt tm htr
      obtain ⟨h3, h4⟩ := ih s₁ s₀ h
      exact ⟨h3.trans h1, fun j => (h4 j).trans (h2 j)⟩

theorem transferList_first_offender (s : ContractState) (caller r id : String)
    (hgt tm idx : Nat) (tk : Token)
    (hres : s.idToIndex id = some idx) (htok : s.tokens idx = some tk)
    (hnt : tk.transferable = false)
    (pre post : List (String × String)) (s₀ : ContractState)
    (hpre : transferList caller hgt tm s pre = .ok s₀) :
    transferList caller hgt tm s (pre ++ (r, id) :: post) =
      .error (.nonTransferable id) := by
  rw [transferList_append, hpre]
  obtain ⟨h1, h2⟩ := transferList_preserves caller hgt tm pre s s₀ hpre
  have hres₀ : s₀.idToIndex id = some idx := by rw [h1, hres]
  have htr₀ := h2 idx
  simp only [htok, Option.map_some', hnt] at htr₀
  cases htk₀ : s₀.tokens idx with
  | none => rw [htk₀] at htr₀; simp at htr₀
  | some tk₀ =>
    rw [htk₀] at htr₀
    simp only [Option.map_some', Option.some.injEq] at htr₀
    show transferList caller hgt tm s₀ ((r, id) :: post) = .error (.nonTransferable id)
    simp only [transferList]
    rw [transferOne_nonTransferable s₀ caller r id hgt tm idx tk₀ hres₀ htk₀ htr₀]

/-- Claim C2: for every token with transferable == false, transfer, send,
batch transfer and batch send all fail with an error whose message contains
"Token ID: <id> is non-transferable" naming that token's id; a batch
operation reports the first offending token id in the processing order
(all earlier items of the batch having succeeded), and a failed batch
leaves no partial mutation from the earlier items. -/
theorem nonTransferableBlocksTransferAndSend
    (s : ContractState) (caller r c id : String) (hgt tm idx : Nat) (tk : Token)
    (hres : s.idToIndex id = some idx) (htok : s.tokens idx = some tk)
    (hnt : tk.transferable = false) :
    (transferOne s caller r id hgt tm = .error (.nonTransferable id)
      ∧ sendOne s caller c id hgt tm = .error (.nonTransferable id)
      ∧ containsSub (ContractError.nonTransferable id).msg
          ("Token ID: " ++ id ++ " is non-transferable"))
    ∧ (∀ (ts : List Transfer) (pre post : List (String × String)) (s₀ : ContractState),
        flattenTransfers ts = pre ++ (r, id) :: post →
        transferList caller hgt tm s pre = .ok s₀ →
        execute s caller hgt tm (.batchTransferNft ts) = .error (.nonTransferable id)
          ∧ applyExecute s caller hgt tm (.batchTransferNft ts) = s)
    ∧ (∀ (ss : List Send) (pre post : List (String × String)) (s₀ : ContractState),
        flattenSends ss = pre ++ (c, id) :: post →
        transferList caller hgt tm s pre = .ok s₀ →
        execute s caller hgt tm (.batchSendNft ss) = .error (.nonTransferable id)
          ∧ applyExecute s caller hgt tm (.batchSendNft ss) = s) := by
  have h1 := transferOne_nonTransferable s caller r id hgt tm idx tk hres htok hnt
  have h1c := transferOne_nonTransferable s caller c id hgt tm idx tk hres htok hnt
  refine ⟨⟨h1, h1c, ⟨[], [], by simp [ContractError.msg]⟩⟩, ?_, ?_⟩
  · intro ts pre post s₀ hflat hpre
    have hb : execute s caller hgt tm (.batchTransferNft ts)
        = .error (.nonTransferable id) := by
      simp only [execute]
      rw [hflat]
      exact transferList_first_offender s caller r id hgt tm idx tk hres htok hnt
        pre post s₀ hpre
    exact ⟨hb, by simp [applyExecute, hb]⟩
  · intro ss pre post s₀ hflat hpre
    have hb : execute s caller hgt tm (.batchSendNft ss)
        = .error (.nonTransferable id) := by
      simp only [execute]
      rw [hflat]
      exact transferList_first_offender s caller c id hgt tm idx tk hres htok hnt
        pre post s₀ hpre
    exact ⟨hb, by simp [applyExecute, hb]⟩

/-- Claim C2 witness: in the concrete state `demo`, transferring the
non-transferable token "NFT1" fails with the expected typed error, both
as a single transfer and as a batch. -/
theorem nonTransferableBlocksTransferAndSend_witness :
    transferOne demo "alice" "bob" "NFT1" 0 0 = .error (.nonTransferable "NFT1")
      ∧ execute demo "alice" 0 0
          (.batchTransferNft [{ recipient := "bob", token_ids := ["NFT1"] }])
          = .error (.nonTransferable "NFT1") := by
  have h := nonTransferableBlocksTransferAndSend demo "alice" "bob" "bob" "NFT1"
    0 0 0 tokNT rfl rfl rfl
  exact ⟨h.1.1,
    (h.2.1 [{ recipient := "bob", token_ids := ["NFT1"] }] [] [] demo rfl rfl).1⟩

/-- Claim C1: a token with transferable == false is burnable by its owner
(single or batch burn) regardless of the global burn_is_enabled flag — in
particular when it is false — while a transferable token is not burnable
by its owner when that flag is false. -/
theorem nonTransferableAlwaysBurnable
    (s : ContractState) (id : String) (hgt tm idx : Nat) (tk : Token)
    (hres : s.idToIndex id = some idx) (htok : s.tokens idx = some tk) :
    (tk.transferable = false →
      exceptIsOk (burnOne s tk.owner id hgt tm) = true
        ∧ exceptIsOk (execute s tk.owner hgt tm
            (.batchBurnNft [{ token_ids := [id] }])) = true)
    ∧ (tk.transferable = true → s.config.burn_is_enabled = false →
      burnOne s tk.owner id hgt tm = .error .burnDisabled
        ∧ execute s tk.owner hgt tm (.batchBurnNft [{ token_ids := [id] }])
            = .error .burnDisabled) := by
  constructor
  · intro hnt
    have hone : exceptIsOk (burnOne s tk.owner id hgt tm) = true := by
      simp [burnOne, hres, htok, hnt, isOwnerOrApproved, exceptIsOk]
    refine ⟨hone, ?_⟩
    show exceptIsOk (burnList tk.owner hgt tm s [id]) = true
    cases hb : burnOne s tk.owner id hgt tm with
    | error e => rw [hb] at hone; simp [exceptIsOk] at hone
    | ok s₁ => simp [burnList, hb, exceptIsOk]
  · intro ht hb
    have hone : burnOne s tk.owner id hgt tm = .error .burnDisabled := by
      simp [burnOne, hres, htok, ht, hb]
    refine ⟨hone, ?_⟩
    show burnList tk.owner hgt tm s [id] = .error .burnDisabled
    simp [burnList, hone]

/-- Claim C1 witness: in `demo` (burn disabled), the owner alice can burn
the non-transferable "NFT1" but not the transferable "NFT2". -/
theorem nonTransferableAlwaysBurnable_witness :
    exceptIsOk (burnOne demo "alice" "NFT1" 0 0) = true
      ∧ burnOne demo "alice" "NFT2" 0 0 = .error .burnDisabled := by
  have h1 := nonTransferableAlwaysBurnable demo "NFT1" 0 0 0 tokNT rfl rfl
  have h2 := nonTransferableAlwaysBurnable demo "NFT2" 0 0 1 tokT rfl rfl
  exact ⟨(h1.1 rfl).1, (h2.2 rfl rfl).1⟩

/-- Claim C6: a successful burn removes, in the same operation, the token's
id→index entry, its index→id entry, its registry record and its index in
the owner's inventory, and decrements the owner's cached inventory count
by one; a rejected burn leaves the state entirely unchanged. -/
theorem burnRemovesAllEntries
    (s s' : ContractState) (caller id : String) (hgt tm idx : Nat) (tk : Token)
    (hres : s.idToIndex id = some idx) (htok : s.tokens idx = some tk)
    (hmem : (s.inventories tk.owner).contains idx = true)
    (hnd : (s.inventories tk.owner).indices.Nodup)
    (hok : burnOne s caller id hgt tm = .ok s') :
    s'.idToIndex id = none
      ∧ s'.indexToId idx = none
      ∧ s'.tokens idx = none
      ∧ (s'.inventories tk.owner).contains idx = false
      ∧ (s'.inventories tk.owner).cnt = (s.inventories tk.owner).cnt - 1
      ∧ ∀ (e : ContractError) (id₂ : String),
          burnOne s caller id₂ hgt tm = .error e →
          applyExecute s caller hgt tm (.burnNft id₂) = s := by
  unfold burnOne at hok
  split at hok
  · simp at hok
  next idx' hidx =>
    rw [hres] at hidx
    obtain rfl := Option.some.inj hidx
    split at hok
    · simp at hok
    next t htok' =>
      rw [htok] at htok'
      obtain rfl := Option.some.inj htok'
      split at hok
      · simp at hok
      · split at hok
        · simp at hok
        · rw [Except.ok.injEq] at hok
          subst hok
          refine ⟨upd_same .., upd_same .., upd_same .., ?_, ?_, ?_⟩
          · show ((upd s.inventories tk.owner
                ((s.inventories tk.owner).remove idx)) tk.owner).contains idx = false
            rw [upd_same]
            simp only [Inventory.remove, hmem, if_true]
            simp [Inventory.contains, List.Nodup.mem_erase_iff hnd]
          · show ((upd s.inventories tk.owner
                ((s.inventories tk.owner).remove idx)) tk.owner).cnt
              = (s.inventories tk.owner).cnt - 1
            rw [upd_same]
            simp [Inventory.remove, hmem]
          · intro e id₂ herr
            simp [applyExecute, execute, herr]

/-- Claim C6 witness: burning "NFT1" in `demo` removes it from both maps,
from the registry and from alice's inventory, whose cached count drops
from 2 to 1. -/
theorem burnRemovesAllEntries_witness :
    (applyExecute demo "alice" 0 0 (.burnNft "NFT1")).idToIndex "NFT1" = none
      ∧ (applyExecute demo "alice" 0 0 (.burnNft "NFT1")).indexToId 0 = none
      ∧ (applyExecute demo "alice" 0 0 (.burnNft "NFT1")).tokens 0 = none
      ∧ ((applyExecute demo "alice" 0 0 (.burnNft "NFT1")).inventories "alice").contains 0
          = false
      ∧ ((applyExecute demo "alice" 0 0 (.burnNft "NFT1")).inventories "alice").cnt = 1 := by
  have h := burnRemovesAllEntries demo (applyExecute demo "alice" 0 0 (.burnNft "NFT1"))
    "alice" "NFT1" 0 0 0 tokNT rfl rfl rfl (by decide) rfl
  exact ⟨h.1, h.2.1, h.2.2.1, h.2.2.2.1, h.2.2.2.2.1⟩

/-- Claim C5: SetRoyaltyInfo with a royalty payload on a non-transferable
token fails — for every caller, authorized or not — with an error whose
message contains "on-transferable tokens can not be sold, so royalties are
meaningless", and the state (hence the token's royalty data) is unchanged. -/
theorem setRoyaltyInfoRejectsNonTransferable
    (s : ContractState) (caller id : String) (hgt tm idx : Nat) (tk : Token)
    (payload : Option RoyaltyInfo) (r : RoyaltyInfo)
    (hres : s.idToIndex id = some idx) (htok : s.tokens idx = some tk)
    (hnt : tk.transferable = false) (_hpay : payload = some r) :
    execute s caller hgt tm (.setRoyaltyInfo (some id) payload)
        = .error .royaltiesOnNonTransferable
      ∧ containsSub (ContractError.royaltiesOnNonTransferable).msg
          "on-transferable tokens can not be sold, so royalties are meaningless"
      ∧ applyExecute s caller hgt tm (.setRoyaltyInfo (some id) payload) = s := by
  have herr : execute s caller hgt tm (.setRoyaltyInfo (some id) payload)
      = .error .royaltiesOnNonTransferable := by
    simp [execute, setRoyaltyInfoOp, hres, htok, hnt]
  exact ⟨herr, ⟨['N'], [], rfl⟩, by simp [applyExecute, herr]⟩

/-- Claim C5 witness: even the admin cannot set royalties on the
non-transferable token "NFT1" of `demo`. -/
theorem setRoyaltyInfoRejectsNonTransferable_witness :
    execute demo "admin" 0 0 (.setRoyaltyInfo (some "NFT1") (some demoRoyalties))
        = .error .royaltiesOnNonTransferable
      ∧ applyExecute demo "admin" 0 0 (.setRoyaltyInfo (some "NFT1") (some demoRoyalties))
        = demo := by
  have h := setRoyaltyInfoRejectsNonTransferable demo "admin" "NFT1" 0 0 0 tokNT
    (some demoRoyalties) demoRoyalties rfl rfl rfl rfl
  exact ⟨h.1, h.2.2⟩

/-- Claim C8: an approval expiring AtHeight(h) is valid exactly when the
current height is ≤ h — still valid at height h, invalid at h+1; AtTime(t)
is valid exactly when the current time is ≤ t; Never is always valid; and
the permission engine accepts a token approval exactly under the same
boundary-inclusive condition. -/
theorem expirationBoundary (h c t now : Nat) (sp : String) :
    (Expiration.atHeight h).isValid c now = decide (c ≤ h)
      ∧ (Expiration.atHeight h).isValid h now = true
      ∧ (Expiration.atHeight h).isValid (h + 1) now = false
      ∧ (Expiration.atTime t).isValid c now = decide (now ≤ t)
      ∧ Expiration.never.isValid c now = true
      ∧ hasValidApproval [{ spender := sp, expiration := .atHeight h }] sp c now
          = decide (c ≤ h) := by
  refine ⟨rfl, by simp [Expiration.isValid], by simp [Expiration.isValid], rfl, rfl, ?_⟩
  simp [hasValidApproval, Expiration.isValid]

/-- Claim C9: the IsTransferable query on an unmapped token id fails with
an error whose message contains "Token ID: <id> not found" when the token
supply is public, and reports token_is_transferable == true when the
supply is private. -/
theorem isTransferableUnknownToken (s : ContractState) (id : String)
    (hres : s.idToIndex id = none) :
    (s.config.token_supply_is_public = true →
      queryIsTransferable s id = .error (.notFound id)
        ∧ containsSub (ContractError.notFound id).msg
            ("Token ID: " ++ id ++ " not found"))
    ∧ (s.config.token_supply_is_public = false →
      queryIsTransferable s id = .ok true) := by
  constructor
  · intro hpub
    exact ⟨by simp [queryIsTransferable, hres, hpub], [], [], by simp [ContractError.msg]⟩
  · intro hpriv
    simp [queryIsTransferable, hres, hpriv]

/-- Claim C9 witness: the unknown id "Nope" fails the query in the
public-supply state `demoPub` and reports transferable in the
private-supply state `demo`. -/
theorem isTransferableUnknownToken_witness :
    queryIsTransferable demoPub "Nope" = .error (.notFound "Nope")
      ∧ queryIsTransferable demo "Nope" = .ok true := by
  have h1 := isTransferableUnknownToken demoPub "Nope" rfl
  have h2 := isTransferableUnknownToken demo "Nope" rfl
  exact ⟨(h1.1 rfl).1, h2.2 rfl⟩

/-- Claim C10: a mint request whose transferable field is omitted produces
a token that the IsTransferable query reports as transferable. -/
theorem mintDefaultsTransferable (s s' : ContractState) (caller id : String)
    (m : Mint) (hid : m.token_id = some id) (hnone : m.transferable = none)
    (hok : mintOne s caller m = .ok s') :
    queryIsTransferable s' id = .ok true := by
  unfold mintOne at hok
  split at hok
  · rw [hid] at hok
    simp only [Option.getD_some] at hok
    split at hok
    · simp at hok
    · rw [Except.ok.injEq] at hok
      subst hok
      simp [queryIsTransferable, upd_same, upd, hnone]
  · simp at hok

/-- Claim C10 witness: minting "NFT3" into `demo` with no transferable
field yields a token the query reports as transferable. -/
theorem mintDefaultsTransferable_witness :
    queryIsTransferable (applyExecute demo "admin" 0 0 (.mintNft mintDefaultT)) "NFT3"
      = .ok true :=
  mintDefaultsTransferable demo
    (applyExecute demo "admin" 0 0 (.mintNft mintDefaultT)) "admin" "NFT3"
    mintDefaultT rfl rfl rfl

theorem mintOne_royaltyInvariant (s s' : ContractState) (caller : String)
    (m : Mint) (hinv : RoyaltyInvariant s) (hok : mintOne s caller m = .ok s') :
    RoyaltyInvariant s' := by
  unfold mintOne at hok
  split at hok
  · split at hok <;> (try dsimp only at hok) <;> split at hok <;>
      first
      | exact absurd hok fun h => Except.noConfusion h
      | (rw [Except.ok.injEq] at hok
         subst hok
         intro i t hti hroy
         by_cases hi : i = s.next_index
         · subst hi
           simp only [upd, if_pos rfl] at hti
           obtain rfl := Option.some.inj hti
           cases htr : m.transferable.getD true with
           | false => simp [htr] at hroy
           | true => simp [htr]
         · simp only [upd, if_neg hi] at hti
           exact hinv i t hti hroy)
  · simp at hok

theorem mintList_royaltyInvariant (caller : String) (ms : List Mint) :
    ∀ s s', RoyaltyInvariant s → mintList caller s ms = .ok s' →
      RoyaltyInvariant s' := by
  induction ms with
  | nil =>
    intro s s' hinv h
    simp only [mintList, Except.ok.injEq] at h
    subst h
    exact hinv
  | cons m rest ih =>
    intro s s' hinv h
    simp only [mintList] at h
    cases hm : mintOne s caller m with
    | error e => rw [hm] at h; simp at h
    | ok s₁ =>
      rw [hm] at h
      exact ih s₁ s' (mintOne_royaltyInvariant s s₁ caller m hinv hm) h

theorem setRoyaltyInfoOp_royaltyInvariant (s s' : ContractState) (caller : String)
    (tid : Option String) (payload : Option RoyaltyInfo)
    (hinv : RoyaltyInvariant s)
    (hok : setRoyaltyInfoOp s caller tid payload = .ok s') :
    RoyaltyInvariant s' := by
  unfold setRoyaltyInfoOp at hok
  split at hok
  · split at hok
    · simp at hok
    next idx hidx =>
      split at hok
      · simp at hok
      next t htok =>
        split at hok
        · simp at hok
        next htrans =>
          split at hok
          · simp at hok
          · rw [Except.ok.injEq] at hok
            subst hok
            intro i u hu hroy
            by_cases hi : i = idx
            · subst hi
              simp only [upd, if_pos rfl] at hu
              obtain rfl := Option.some.inj hu
              simpa using htrans
            · simp only [upd, if_neg hi] at hu
              exact hinv i u hu hroy
  · split at hok
    · rw [Except.ok.injEq] at hok
      subst hok
      exact hinv
    · simp at hok

/-- Claim C7: the invariant "royalty data present implies transferable"
is preserved by every mint (single or batch) and by every royalty-setting
attempt, whether the attempt succeeds or fails. -/
theorem royaltyImpliesTransferableInvariant (s : ContractState) (caller : String)
    (hgt tm : Nat) (m : Mint) (ms : List Mint) (tid : Option String)
    (payload : Option RoyaltyInfo) (hinv : RoyaltyInvariant s) :
    RoyaltyInvariant (applyExecute s caller hgt tm (.mintNft m))
      ∧ RoyaltyInvariant (applyExecute s caller hgt tm (.batchMintNft ms))
      ∧ RoyaltyInvariant (applyExecute s caller hgt tm (.setRoyaltyInfo tid payload)) := by
  refine ⟨?_, ?_, ?_⟩
  · cases hres : mintOne s caller m with
    | error e => simpa [applyExecute, execute, hres] using hinv
    | ok s' =>
      simpa [applyExecute, execute, hres] using
        mintOne_royaltyInvariant s s' caller m hinv hres
  · cases hres : mintList caller s ms with
    | error e => simpa [applyExecute, execute, hres] using hinv
    | ok s' =>
      simpa [applyExecute, execute, hres] using
        mintList_royaltyInvariant caller ms s s' hinv hres
  · cases hres : setRoyaltyInfoOp s caller tid payload with
    | error e => simpa [applyExecute, execute, hres] using hinv
    | ok s' =>
      simpa [applyExecute, execute, hres] using
        setRoyaltyInfoOp_royaltyInvariant s s' caller tid payload hinv hres

/-- Claim C7 witness: the invariant holds after minting the
royalty-plus-non-transferable request `mint4` into the fresh state. -/
theorem royaltyImpliesTransferableInvariant_witness :
    RoyaltyInvariant (applyExecute demo0 "admin" 0 0 (.mintNft mint4)) := by
  have h := royaltyImpliesTransferableInvariant demo0 "admin" 0 0 mint4 [mint4]
    (some "TrySetRoys") (some demoRoyalties)
    (by intro i t ht hr; simp [demo0] at ht)
  exact h.1

theorem tokenApproved_nonTransferable (s : ContractState) (addr id : String)
    (hgt tm idx : Nat) (tk : Token)
    (hres : s.idToIndex id = some idx) (htok : s.tokens idx = some tk)
    (hnt : tk.transferable = false) :
    tokenApproved s addr hgt tm id = false := by
  simp [tokenApproved, hres, htok, hnt]

theorem firstUnapproved_isSome (s : ContractState) (addr id : String)
    (hgt tm : Nat) (hfail : tokenApproved s addr hgt tm id = false) :
    ∀ ids, id ∈ ids → (firstUnapproved s addr hgt tm ids).isSome = true := by
  intro ids
  induction ids with
  | nil => intro h; simp at h
  | cons j rest ih =>
    intro hmem
    cases hj : tokenApproved s addr hgt tm j with
    | false => simp [firstUnapproved, hj]
    | true =>
      rcases List.mem_cons.mp hmem with h | h
      · subst h
        exact absurd (hj.symm.trans hfail) (by simp)
      · simpa [firstUnapproved, hj] using ih h

theorem firstUnapproved_prefix (s : ContractState) (addr id : String)
    (hgt tm : Nat) (post : List String)
    (hfail : tokenApproved s addr hgt tm id = false) :
    ∀ pre, (∀ j ∈ pre, tokenApproved s addr hgt tm j = true) →
      firstUnapproved s addr hgt tm (pre ++ id :: post) = some id := by
  intro pre
  induction pre with
  | nil => intro _; simp [firstUnapproved, hfail]
  | cons j rest ih =>
    intro hall
    have hj : tokenApproved s addr hgt tm j = true := hall j (List.mem_cons_self j rest)
    rw [List.cons_append]
    simp only [firstUnapproved, hj, if_true]
    exact ih fun k hk => hall k (List.mem_cons_of_mem j hk)

/-- Claim C3 (amended): the VerifyTransferApproval query treats a
non-transferable token as not approved for every address including its
owner: whenever such a token is in the queried list, approved_for_all is
false; first_unapproved_token is the FIRST not-approved token of the list,
so the non-transferable token's id is returned exactly when every earlier
token in the list is approved (in particular in the single-token query of
the unit test). -/
theorem verifyTransferApprovalNonTransferable
    (s : ContractState) (addr id : String) (hgt tm idx : Nat) (tk : Token)
    (hres : s.idToIndex id = some idx) (htok : s.tokens idx = some tk)
    (hnt : tk.transferable = false) :
    (∀ ids, id ∈ ids → (verifyTransferApproval s addr hgt tm ids).1 = false)
    ∧ (∀ pre post, (∀ j ∈ pre, tokenApproved s addr hgt tm j = true) →
        verifyTransferApproval s addr hgt tm (pre ++ id :: post) = (false, some id)) := by
  have hfail := tokenApproved_nonTransferable s addr id hgt tm idx tk hres htok hnt
  constructor
  · intro ids hm
    have h := firstUnapproved_isSome s addr id hgt tm hfail ids hm
    cases hfu : firstUnapproved s addr hgt tm ids with
    | none => rw [hfu] at h; simp at h
    | some j => simp [verifyTransferApproval, hfu]
  · intro pre post hall
    have h := firstUnapproved_prefix s addr id hgt tm post hfail pre hall
    simp [verifyTransferApproval, h]

/-- Claim C3 counterexample: in `cs3`, token "B" is non-transferable and
appears in the queried list, yet the query for its owner bob names "A" —
the first not-approved token of the list — as first_unapproved_token, not
"B"; so the claim's "returns that token's id" fails for this list. -/
theorem verifyTransferApprovalNonTransferable_cex :
    cs3.idToIndex "B" = some 1
      ∧ cs3.tokens 1 = some tokB
      ∧ tokB.transferable = false
      ∧ verifyTransferApproval cs3 "bob" 0 0 ["A", "B"] = (false, some "A")
      ∧ some "A" ≠ some "B" := by
  exact ⟨rfl, rfl, rfl, rfl, by simp⟩

/-- Claim C3 witness: in `demo`, the owner alice queries her own
non-transferable "NFT1" and gets not-approved with "NFT1" as
first_unapproved_token, as in the unit test. -/
theorem verifyTransferApprovalNonTransferable_witness :
    verifyTransferApproval demo "alice" 0 0 ["NFT1"] = (false, some "NFT1") := by
  have h := verifyTransferApprovalNonTransferable demo "alice" "NFT1" 0 0 0 tokNT
    rfl rfl rfl
  exact h.2 [] [] (by intro j hj; simp at hj)

/-- Claim C4 counterexample: a mint supplying a royalty payload together
with transferable == Some(false) is NOT rejected: in the fresh state
`demo0` the mint of `mint4` succeeds and creates the token, its index
mapping and its inventory entry — while storing no royalty data. -/
theorem mintRoyaltyNonTransferable_cex :
    mint4.royalty_info.isSome = true
      ∧ mint4.transferable = some false
      ∧ exceptIsOk (execute demo0 "admin" 0 0 (.mintNft mint4)) = true
      ∧ (applyExecute demo0 "admin" 0 0 (.mintNft mint4)).idToIndex "TrySetRoys" = some 0
      ∧ (applyExecute demo0 "admin" 0 0 (.mintNft mint4)).tokens 0 ≠ none
      ∧ ((applyExecute demo0 "admin" 0 0 (.mintNft mint4)).inventories "admin").contains 0
          = true
      ∧ tokenRoyalty (applyExecute demo0 "admin" 0 0 (.mintNft mint4)) 0 = none := by
  exact ⟨rfl, rfl, rfl, rfl, by decide, rfl, rfl⟩

/-- Claim C4 (amended): a mint that supplies a royalty payload while
transferable == Some(false) succeeds (whenever the same mint without the
payload would), and the created token carries royalty_info == none — the
supplied payload and the contract default are both silently dropped; the
token, its index mapping and its inventory entry ARE created. -/
theorem mintDropsRoyaltiesOnNonTransferable
    (s s' : ContractState) (caller id : String) (m : Mint)
    (hid : m.token_id = some id) (hnt : m.transferable = some false)
    (hok : mintOne s caller m = .ok s') :
    s'.idToIndex id = some s.next_index
      ∧ s'.tokens s.next_index = some
          { owner := m.owner.getD caller
            public_metadata := m.public_metadata
            private_metadata := m.private_metadata
            royalty_info := none
            transferable := false
            unwrapped := !s.config.sealed_metadata_is_enabled
            approvals := [] }
      ∧ (s'.inventories (m.owner.getD caller)).contains s.next_index = true
      ∧ tokenRoyalty s' s.next_index = none := by
  unfold mintOne at hok
  split at hok
  · rw [hid] at hok
    simp only [Option.getD_some] at hok
    split at hok
    · simp at hok
    · rw [Except.ok.injEq] at hok
      subst hok
      refine ⟨by simp [upd], by simp [upd, hnt], ?_, by simp [tokenRoyalty, upd, hnt]⟩
      show ((upd s.inventories (m.owner.getD caller)
          ((s.inventories (m.owner.getD caller)).insert s.next_index))
          (m.owner.getD caller)).contains s.next_index = true
      rw [upd_same]
      cases hc : (s.inventories (m.owner.getD caller)).contains s.next_index with
      | true => simp [Inventory.insert, hc]
      | false =>
        have hc' : s.next_index ∉ (s.inventories (m.owner.getD caller)).indices := by
          simpa [Inventory.contains] using hc
        simp [Inventory.insert, Inventory.contains, hc']
  · simp at hok

/-- Claim C4 (amended) witness: minting `mint4` into `demo0` maps
"TrySetRoys" to index 0 and stores no royalty data on the token. -/
theorem mintDropsRoyaltiesOnNonTransferable_witness :
    (applyExecute demo0 "admin" 0 0 (.mintNft mint4)).idToIndex "TrySetRoys" = some 0
      ∧ tokenRoyalty (applyExecute demo0 "admin" 0 0 (.mintNft mint4)) 0 = none := by
  have h := mintDropsRoyaltiesOnNonTransferable demo0
    (applyExecute demo0 "admin" 0 0 (.mintNft mint4)) "admin" "TrySetRoys" mint4
    rfl rfl rfl
  exact ⟨h.1, h.2.2.2⟩

end Snip721
